import Mathlib

/-!
Verification of the Monkey-family tree-walking interpreter.

The development shallowly embeds the interpreter's core (lexer, Pratt
parser, environment, evaluator) and proves or refutes the specification's
claims about it.

Modelling conventions:
- `i64` values are carried as `Int`; the Rust debug-profile semantics of
  arithmetic is kept explicit: an operation whose result does not fit in
  `i64` panics (`attempt to ... with overflow`), and `%` with a zero
  divisor panics, exactly as the unguarded `int1 % int2` does in Rust.
- Rust `Rc<RefCell<Environment>>` references are modelled by an arena: a
  `Store` is the list of all allocated environments and a reference is an
  index into it.  `Environment::new` / `Environment::with_outer` append a
  fresh environment; sharing and interior mutability become index sharing
  plus in-place `List.set` updates.
- Every loop or recursion that Rust runs on the host stack is given a
  `Nat` fuel argument and is structurally recursive on it, so that closed
  runs compute by `rfl`; exhausting fuel yields a `panic` outcome (the
  host-stack-overflow analogue) and never occurs in the concrete runs
  below.
- The `Result<_, EvaluationError>` / `Result<_, ParserError>` types are
  modelled by `Res` (evaluator, with a third `panic` outcome) and
  `Except ParserError` (parser).
-/

/-- Source location, from src/lexer/location.rs. -/
structure Location where
  line : Nat
  column : Nat
deriving Repr, DecidableEq

def Location.new (line column : Nat) : Location := ⟨line, column⟩

/-- Display of a location, `@line:column`, from src/lexer/location.rs. -/
def Location.displayStr (l : Location) : String :=
  "@" ++ toString l.line ++ ":" ++ toString l.column

/-- Token kinds, from src/lexer/token.rs. -/
inductive TokenType where
  | Let
  | Identifier (s : String)
  | Assign
  | Integer (s : String)
  | Comma
  | Function
  | LParen
  | RParen
  | LBrace
  | RBrace
  | Semicolon
  | Illegal (c : Char)
  | EOF
  | Plus
  | Minus
  | Bang
  | Asterisk
  | Slash
  | LT
  | GT
  | True
  | False
  | If
  | Else
  | Return
  | Eq
  | NotEq
  | Modulo
  | Null
deriving Repr, DecidableEq

/-- Display of a token type, from src/lexer/token.rs (`impl Display for TokenType`). -/
def TokenType.displayStr : TokenType → String
  | .Let => "let"
  | .Identifier identifier => "identifier " ++ identifier
  | .Assign => "assign"
  | .Integer integer => "integer " ++ integer
  | .Comma => ","
  | .Function => "function"
  | .LParen => "("
  | .RParen => ")"
  | .LBrace => "\x7b"
  | .RBrace => "\x7d"
  | .Semicolon => ";"
  | .Illegal illegal => "illegal " ++ String.mk [illegal]
  | .EOF => "end of file"
  | .Plus => "+"
  | .Minus => "-"
  | .Bang => "!"
  | .Asterisk => "*"
  | .Slash => "/"
  | .LT => "<"
  | .GT => ">"
  | .True => "boolean true"
  | .False => "boolean false"
  | .If => "if"
  | .Else => "else"
  | .Return => "return"
  | .Eq => "=="
  | .NotEq => "!="
  | .Modulo => "%"
  | .Null => "null"

/-- Debug rendering of a token type (Rust derive Debug), used only in the
Expected-prefix-expression parser error message. -/
def TokenType.debugStr : TokenType → String
  | .Let => "Let"
  | .Identifier s => "Identifier(\"" ++ s ++ "\")"
  | .Assign => "Assign"
  | .Integer s => "Integer(\"" ++ s ++ "\")"
  | .Comma => "Comma"
  | .Function => "Function"
  | .LParen => "LParen"
  | .RParen => "RParen"
  | .LBrace => "LBrace"
  | .RBrace => "RBrace"
  | .Semicolon => "Semicolon"
  | .Illegal c => "Illegal(" ++ String.mk [c] ++ ")"
  | .EOF => "EOF"
  | .Plus => "Plus"
  | .Minus => "Minus"
  | .Bang => "Bang"
  | .Asterisk => "Asterisk"
  | .Slash => "Slash"
  | .LT => "LT"
  | .GT => "GT"
  | .True => "True"
  | .False => "False"
  | .If => "If"
  | .Else => "Else"
  | .Return => "Return"
  | .Eq => "Eq"
  | .NotEq => "NotEq"
  | .Modulo => "Modulo"
  | .Null => "Null"

/-- Token, from src/lexer/token.rs. -/
structure Token where
  token_type : TokenType
  location : Location
deriving Repr, DecidableEq

def Token.new (token_type : TokenType) (location : Location) : Token :=
  ⟨token_type, location⟩

/-- Lexer state, from src/lexer/lexer.rs: the remaining characters of the
peekable char iterator, the current character, and the line/column
counters. -/
structure Lexer where
  chars : List Char
  ch : Option Char
  line : Nat
  column : Nat
deriving Repr, DecidableEq

/-- Advance to the next character, from src/lexer/lexer.rs (`read_char`):
`\n` bumps the line and resets the column to 0, any other character bumps
the column; at end of input the current character becomes `none`. -/
def Lexer.read_char (l : Lexer) : Lexer :=
  match l.chars with
  | c :: rest =>
    if c = '\n' then { chars := rest, ch := some c, line := l.line + 1, column := 0 }
    else { chars := rest, ch := some c, line := l.line, column := l.column + 1 }
  | [] => { l with ch := none }

/-- Constructor, from src/lexer/lexer.rs (`Lexer::new`): line 1, column 0,
then one `read_char`. -/
def Lexer.new (input : String) : Lexer :=
  Lexer.read_char { chars := input.toList, ch := none, line := 1, column := 0 }

def Lexer.peek_char (l : Lexer) : Option Char := l.chars.head?

def Lexer.is_letter (ch : Char) : Bool :=
  decide ((('a' ≤ ch ∧ ch ≤ 'z') ∨ ('A' ≤ ch ∧ ch ≤ 'Z')) ∨ ch = '_')

def Lexer.is_digit (ch : Char) : Bool :=
  decide ('0' ≤ ch ∧ ch ≤ '9')

def Lexer.is_whitespace (ch : Char) : Bool :=
  decide (ch = ' ' ∨ ch = '\t' ∨ ch = '\n' ∨ ch = '\r')

/-- Fuel-bounded whitespace-skipping loop of src/lexer/lexer.rs
(`skip_whitespace`); the wrapper always supplies enough fuel to run the
loop to completion. -/
def Lexer.skip_whitespace_go : Nat → Lexer → Lexer
  | 0, l => l
  | fuel + 1, l =>
    match l.ch with
    | some c => if Lexer.is_whitespace c then Lexer.skip_whitespace_go fuel l.read_char else l
    | none => l

/-- Skip whitespace, from src/lexer/lexer.rs.  The loop consumes at most
one character per iteration, so `chars.length + 2` fuel always suffices. -/
def Lexer.skip_whitespace (l : Lexer) : Lexer :=
  Lexer.skip_whitespace_go (l.chars.length + 2) l

/-- Fuel-bounded digit-reading loop of src/lexer/lexer.rs (`read_integer`). -/
def Lexer.read_integer_go : Nat → Lexer → List Char × Lexer
  | 0, l => ([], l)
  | fuel + 1, l =>
    match l.ch with
    | some c =>
      if Lexer.is_digit c then
        let (rest, l') := Lexer.read_integer_go fuel l.read_char
        (c :: rest, l')
      else ([], l)
    | none => ([], l)

/-- Read a maximal digit run, from src/lexer/lexer.rs (`read_integer`). -/
def Lexer.read_integer (l : Lexer) : List Char × Lexer :=
  Lexer.read_integer_go (l.chars.length + 2) l

/-- Fuel-bounded word-reading loop of src/lexer/lexer.rs (`read_word`). -/
def Lexer.read_word_go : Nat → Lexer → List Char × Lexer
  | 0, l => ([], l)
  | fuel + 1, l =>
    match l.ch with
    | some c =>
      if Lexer.is_letter c then
        let (rest, l') := Lexer.read_word_go fuel l.read_char
        (c :: rest, l')
      else ([], l)
    | none => ([], l)

/-- Read a maximal letter/underscore run, from src/lexer/lexer.rs (`read_word`). -/
def Lexer.read_word (l : Lexer) : List Char × Lexer :=
  Lexer.read_word_go (l.chars.length + 2) l

/-- Keyword table of src/lexer/lexer.rs (`next_token`, word branch).  Note
that the source's table maps only `let`, `fn`, `true`, `false`, `if`,
`else`, `return`; it has no entry for `null`, so the word `null` falls
through to `Identifier`. -/
def Lexer.lookup_word (word : String) : TokenType :=
  if word = "let" then .Let
  else if word = "fn" then .Function
  else if word = "true" then .True
  else if word = "false" then .False
  else if word = "if" then .If
  else if word = "else" then .Else
  else if word = "return" then .Return
  else .Identifier word

/-- Produce the next token, from src/lexer/lexer.rs (`next_token`): skip
whitespace, record the location, classify by the current character;
one- and two-character tokens advance past themselves afterwards, while
integer/word tokens return directly (the reading loop has already
advanced). -/
def Lexer.next_token (l0 : Lexer) : Token × Lexer :=
  let l := l0.skip_whitespace
  let location : Location := ⟨l.line, l.column⟩
  match l.ch with
  | none => (Token.new .EOF location, l.read_char)
  | some c =>
    if c = ',' then (Token.new .Comma location, l.read_char)
    else if c = '(' then (Token.new .LParen location, l.read_char)
    else if c = ')' then (Token.new .RParen location, l.read_char)
    else if c = Char.ofNat 123 then (Token.new .LBrace location, l.read_char)
    else if c = Char.ofNat 125 then (Token.new .RBrace location, l.read_char)
    else if c = ';' then (Token.new .Semicolon location, l.read_char)
    else if c = '!' then
      match l.peek_char with
      | some '=' => (Token.new .NotEq location, l.read_char.read_char)
      | _ => (Token.new .Bang location, l.read_char)
    else if c = '=' then
      match l.peek_char with
      | some '=' => (Token.new .Eq location, l.read_char.read_char)
      | _ => (Token.new .Assign location, l.read_char)
    else if c = '*' then (Token.new .Asterisk location, l.read_char)
    else if c = '/' then (Token.new .Slash location, l.read_char)
    else if c = '+' then (Token.new .Plus location, l.read_char)
    else if c = '-' then (Token.new .Minus location, l.read_char)
    else if c = '<' then (Token.new .LT location, l.read_char)
    else if c = '>' then (Token.new .GT location, l.read_char)
    else if Lexer.is_digit c then
      let (cs, l') := l.read_integer
      (Token.new (.Integer (String.mk cs)) location, l')
    else if Lexer.is_letter c then
      let (cs, l') := l.read_word
      (Token.new (Lexer.lookup_word (String.mk cs)) location, l')
    else if c = '%' then (Token.new .Modulo location, l.read_char)
    else (Token.new (.Illegal c) location, l.read_char)

/-- Prefix operators, from src/parser/ast/operator.rs. -/
inductive PrefixOperator where
  | Not
  | Negative
deriving Repr, DecidableEq

/-- Infix operators, from src/parser/ast/operator.rs. -/
inductive InfixOperator where
  | Add
  | Sub
  | Mult
  | Div
  | Modulo
  | Equal
  | NotEqual
  | GreaterThan
  | LessThan
deriving Repr, DecidableEq

/-- Display of an infix operator, from src/parser/ast/operator.rs. -/
def InfixOperator.displayStr : InfixOperator → String
  | .Add => "+"
  | .Sub => "-"
  | .Mult => "*"
  | .Div => "/"
  | .Modulo => "%"
  | .Equal => "=="
  | .NotEqual => "!="
  | .GreaterThan => ">"
  | .LessThan => "<"

/-- Display of a prefix operator, from src/parser/ast/operator.rs. -/
def PrefixOperator.displayStr : PrefixOperator → String
  | .Not => "!"
  | .Negative => "-"

mutual
/-- Expressions, from src/parser/ast/expression.rs as used by
src/parser/parser.rs and src/evaluator/evaluator.rs: function literals
carry their parameter names (`parse_function_params` returns `Vec<String>`)
and `Null` is a variant (`parse_prefix` builds `Expression::Null`).
`Prefix` / `Infix` are rendered here as `PrefixExpr` / `InfixExpr`. -/
inductive Expression where
  | Int (i : Int)
  | Bool (b : Bool)
  | Identifier (s : String)
  | Null
  | If (condition : Expression) (consequence : List Statement)
      (alternative : Option (List Statement))
  | Function (parameters : List String) (body : List Statement)
  | Call (function : Expression) (arguments : List Expression)
  | PrefixExpr (operator : PrefixOperator) (rhs : Expression)
  | InfixExpr (lhs : Expression) (operator : InfixOperator) (rhs : Expression)

/-- Statements, from src/parser/ast/statement.rs as used by the evaluator
(src/evaluator/evaluator.rs matches a `Block` variant holding a statement
list, used for function bodies and produced only by `eval_call`). -/
inductive Statement where
  | Let (name : String) (value : Expression)
  | Return (value : Expression)
  | Expression (expression : Expression)
  | Block (statements : List Statement)
end

/-- Program, from src/parser/ast (a list of statements). -/
structure Program where
  statements : List Statement

mutual
/-- Display of an expression, from src/parser/ast/expression.rs
(`impl Display for Expression`); the `Null` case is absent from the file
present in the sources and is modelled from the spec (`Null` prints
`null`).  The fuel argument only bounds recursion depth and is never
exhausted on the concrete terms below. -/
def expressionDisplay : Nat → Expression → String
  | 0, _ => ""
  | fuel + 1, e =>
    match e with
    | .InfixExpr lhs op rhs =>
      "(" ++ expressionDisplay fuel lhs ++ " " ++ op.displayStr ++ " " ++
        expressionDisplay fuel rhs ++ ")"
    | .PrefixExpr op rhs => "(" ++ op.displayStr ++ expressionDisplay fuel rhs ++ ")"
    | .Bool b => if b then "true" else "false"
    | .Int i => toString i
    | .Identifier identifier => identifier
    | .Null => "null"
    | .If condition consequence alternative =>
      "if " ++ expressionDisplay fuel condition ++ " \x7b " ++
        String.intercalate " " (statementsDisplay fuel consequence) ++ " \x7d else \x7b " ++
        (match alternative with
         | some alt => String.intercalate " " (statementsDisplay fuel alt)
         | none => "") ++ " \x7d"
    | .Function parameters body =>
      "fn(" ++ String.intercalate ", " parameters ++ ") \x7b " ++
        String.intercalate " " (statementsDisplay fuel body) ++ " \x7d"
    | .Call function arguments =>
      expressionDisplay fuel function ++ "(" ++
        String.intercalate ", " (expressionsDisplay fuel arguments) ++ ")"

/-- Display of a statement, from src/parser/ast/statement.rs; the `Block`
variant has no Display in the sources and is unreachable in parser output
(only `eval_call` builds it, transiently), so it is rendered like a
statement list. -/
def statementDisplay : Nat → Statement → String
  | 0, _ => ""
  | fuel + 1, s =>
    match s with
    | .Let name value => "let " ++ name ++ " = " ++ expressionDisplay fuel value
    | .Return value => "return " ++ expressionDisplay fuel value
    | .Expression expression => expressionDisplay fuel expression
    | .Block statements => String.intercalate " " (statementsDisplay fuel statements)

def statementsDisplay : Nat → List Statement → List String
  | 0, _ => []
  | _fuel + 1, [] => []
  | fuel + 1, s :: rest => statementDisplay (fuel + 1) s :: statementsDisplay fuel rest

def expressionsDisplay : Nat → List Expression → List String
  | 0, _ => []
  | _fuel + 1, [] => []
  | fuel + 1, e :: rest => expressionDisplay (fuel + 1) e :: expressionsDisplay fuel rest
end

/-- Modelled from the spec: the Display implementation for the parser's
`Program` type (the file src/parser/ast/program.rs that `parser.rs`
imports is absent from the sources; only a stale twin under src/ast
remains).  Per the spec's canonical-printing table, the statements of a
program print separated by a newline. -/
def Program.displayString (p : Program) : String :=
  String.intercalate "\n" (p.statements.map (statementDisplay 50))

/-- Precedence levels, from src/parser/precedence.rs. -/
inductive Precedence where
  | lowest
  | equals
  | lessgreater
  | sum
  | product
  | prefixLevel
  | callLevel
deriving Repr, DecidableEq

/-- Discriminant values of the precedence levels, from src/parser/precedence.rs
(the derived `PartialOrd` compares by declaration order, i.e. by these values). -/
def Precedence.val : Precedence → Nat
  | .lowest => 1
  | .equals => 2
  | .lessgreater => 3
  | .sum => 4
  | .product => 5
  | .prefixLevel => 6
  | .callLevel => 7

/-- Token-to-precedence table, from src/parser/precedence.rs
(`impl From<&Token> for Precedence`). -/
def Precedence.fromToken (t : Token) : Precedence :=
  match t.token_type with
  | .Eq => .equals
  | .NotEq => .equals
  | .Plus => .sum
  | .Minus => .sum
  | .Slash => .product
  | .Asterisk => .product
  | .GT => .lessgreater
  | .LT => .lessgreater
  | .LParen => .callLevel
  | .Modulo => .product
  | _ => .lowest

/-- Parser error, from src/parser/parser.rs. -/
structure ParserError where
  msg : String
  location : Location
deriving Repr, DecidableEq

def ParserError.new (msg : String) (location : Location) : ParserError :=
  ⟨msg, location⟩

/-- Parser state, from src/parser/parser.rs. -/
structure Parser where
  lexer : Lexer
  current_token : Token
  peeking_token : Token
  errors : List ParserError

/-- Constructor, from src/parser/parser.rs (`Parser::new`): pre-fetch the
current and peeking tokens. -/
def Parser.new (lexer : Lexer) : Parser :=
  let (current_token, lx1) := lexer.next_token
  let (peeking_token, lx2) := lx1.next_token
  { lexer := lx2, current_token, peeking_token, errors := [] }

/-- Advance by one token, from src/parser/parser.rs (`next_token`). -/
def Parser.next_token (p : Parser) : Parser :=
  let (t, lx) := p.lexer.next_token
  { p with current_token := p.peeking_token, peeking_token := t, lexer := lx }

/-- The `expect_peek!` macro of src/parser/macros.rs: if the peeking token
has the expected kind, advance and succeed, else fail with
`unexpected token <kind> in <loc>`. -/
def Parser.expect_peek (p : Parser) (expected : TokenType) :
    Except ParserError Unit × Parser :=
  if p.peeking_token.token_type = expected then (.ok (), p.next_token)
  else
    (.error (ParserError.new
      ("unexpected token " ++ p.peeking_token.token_type.displayStr ++ " in " ++
        p.peeking_token.location.displayStr) p.peeking_token.location), p)

/-- Error used when the fuel of a parsing loop runs out; never produced in
the concrete runs below. -/
def Parser.fuelError (p : Parser) : ParserError :=
  ParserError.new "out of fuel" p.current_token.location

/-- Parse a boolean literal, from src/parser/parser.rs (`parse_boolean`). -/
def Parser.parse_boolean (p : Parser) : Except ParserError Expression × Parser :=
  match p.current_token.token_type with
  | .True => (.ok (.Bool true), p)
  | .False => (.ok (.Bool false), p)
  | tt =>
    (.error (ParserError.new ("expected boolean, got " ++ tt.displayStr)
      p.current_token.location), p)

/-- Numeric value of a digit string (the digits produced by the lexer). -/
def digitsToNat : List Char → Nat → Nat
  | [], acc => acc
  | c :: rest, acc => digitsToNat rest (acc * 10 + (c.toNat - 48))

/-- The `literal.parse::<i64>()` call of src/parser/parser.rs
(`parse_integer`): the lexer only hands over nonempty digit runs, so the
parse fails exactly when the value overflows `i64`. -/
def parseI64 (s : String) : Option Int :=
  let v := digitsToNat s.toList 0
  if v ≤ 2 ^ 63 - 1 then some (Int.ofNat v) else none

/-- Parse an integer literal, from src/parser/parser.rs (`parse_integer`). -/
def Parser.parse_integer (p : Parser) (literal : String) :
    Except ParserError Expression × Parser :=
  match parseI64 literal with
  | some i => (.ok (.Int i), p)
  | none =>
    (.error (ParserError.new ("failed to parse integer " ++ literal)
      p.current_token.location), p)

/-- The statement-boundary recovery loop of src/parser/parser.rs
(`advance_tokens`): skip to the next `;` or `EOF`. -/
def Parser.advance_tokens_go : Nat → Parser → Parser
  | 0, p => p
  | fuel + 1, p =>
    if p.current_token.token_type ≠ .Semicolon ∧ p.current_token.token_type ≠ .EOF then
      Parser.advance_tokens_go fuel p.next_token
    else p

/-- Advance past the current statement, from src/parser/parser.rs
(`advance_tokens`): skip to the next `;` or `EOF`, then step over a `;`. -/
def Parser.advance_tokens (fuel : Nat) (p : Parser) : Parser :=
  let p1 := Parser.advance_tokens_go fuel p
  if p1.current_token.token_type = .Semicolon then p1.next_token else p1

mutual
/-- Parse one statement by dispatch on the current token, from
src/parser/parser.rs (`parse_statement`). -/
def Parser.parse_statement : Nat → Parser → Except ParserError Statement × Parser
  | 0, p => (.error p.fuelError, p)
  | fuel + 1, p =>
    match p.current_token.token_type with
    | .Let => Parser.parse_let_statement fuel p
    | .Return => Parser.parse_return_statement fuel p
    | _ => Parser.parse_expression_statement fuel p

/-- Parse an expression statement, from src/parser/parser.rs
(`parse_expression_statement`): parse at `LOWEST`, then step over an
optional trailing `;`. -/
def Parser.parse_expression_statement : Nat → Parser → Except ParserError Statement × Parser
  | 0, p => (.error p.fuelError, p)
  | fuel + 1, p =>
    match Parser.parse_expression fuel .lowest p with
    | (.ok expression, p1) =>
      let p2 := if p1.peeking_token.token_type = .Semicolon then p1.next_token else p1
      (.ok (.Expression expression), p2)
    | (.error e, p1) => (.error e, p1)

/-- Parse a let statement, from src/parser/parser.rs (`parse_let_statement`). -/
def Parser.parse_let_statement : Nat → Parser → Except ParserError Statement × Parser
  | 0, p => (.error p.fuelError, p)
  | fuel + 1, p0 =>
    let p := p0.next_token
    match p.current_token.token_type with
    | .Identifier identifier =>
      match p.expect_peek .Assign with
      | (.ok _, p1) =>
        let p2 := p1.next_token
        match Parser.parse_expression fuel .lowest p2 with
        | (.ok expression, p3) =>
          let p4 := if p3.peeking_token.token_type = .Semicolon then p3.next_token else p3
          (.ok (.Let identifier expression), p4)
        | (.error e, p3) => (.error e, p3)
      | (.error e, p1) => (.error e, p1)
    | tt =>
      (.error (ParserError.new ("expected identifier, got " ++ tt.displayStr)
        p.current_token.location), p)

/-- Parse a return statement, from src/parser/parser.rs (`parse_return_statement`). -/
def Parser.parse_return_statement : Nat → Parser → Except ParserError Statement × Parser
  | 0, p => (.error p.fuelError, p)
  | fuel + 1, p0 =>
    let p := p0.next_token
    match Parser.parse_expression fuel .lowest p with
    | (.ok expression, p1) =>
      let p2 := if p1.peeking_token.token_type = .Semicolon then p1.next_token else p1
      (.ok (.Return expression), p2)
    | (.error e, p1) => (.error e, p1)

/-- Pratt expression parsing, from src/parser/parser.rs (`parse_expression`):
parse a prefix form, then extend it leftward through the precedence-climbing
loop. -/
def Parser.parse_expression : Nat → Precedence → Parser → Except ParserError Expression × Parser
  | 0, _, p => (.error p.fuelError, p)
  | fuel + 1, precedence, p =>
    match Parser.parse_prefix_form fuel p with
    | (.ok lhs, p1) => Parser.parse_expression_go fuel precedence lhs p1
    | (.error e, p1) => (.error e, p1)

/-- The `while` loop of `parse_expression`: while the peek token is not `;`
and the caller's precedence is strictly below the peek token's precedence,
advance onto the operator and replace `lhs` by the parsed infix form. -/
def Parser.parse_expression_go :
    Nat → Precedence → Expression → Parser → Except ParserError Expression × Parser
  | 0, _, _, p => (.error p.fuelError, p)
  | fuel + 1, precedence, lhs, p =>
    if p.peeking_token.token_type ≠ .Semicolon ∧
        precedence.val < (Precedence.fromToken p.peeking_token).val then
      let p1 := p.next_token
      match Parser.parse_infix_form fuel lhs p1 with
      | (.ok lhs', p2) => Parser.parse_expression_go fuel precedence lhs' p2
      | (.error e, p2) => (.error e, p2)
    else (.ok lhs, p)

/-- Prefix-position dispatch, from src/parser/parser.rs (`parse_prefix`). -/
def Parser.parse_prefix_form : Nat → Parser → Except ParserError Expression × Parser
  | 0, p => (.error p.fuelError, p)
  | fuel + 1, p =>
    match p.current_token.token_type with
    | .Identifier identifier => (.ok (.Identifier identifier), p)
    | .Integer integer_literal => p.parse_integer integer_literal
    | .LParen => Parser.parse_grouped_expression fuel p
    | .True => p.parse_boolean
    | .False => p.parse_boolean
    | .Bang => Parser.parse_prefix_expression fuel p
    | .Minus => Parser.parse_prefix_expression fuel p
    | .If => Parser.parse_if_expression fuel p
    | .Function => Parser.parse_function_literal fuel p
    | .Null => (.ok .Null, p)
    | tt =>
      (.error (ParserError.new ("Expected prefix expression, got " ++ tt.debugStr)
        p.current_token.location), p)

/-- Infix-position dispatch, from src/parser/parser.rs (`parse_infix`):
binary operators capture the current token's precedence and parse the rhs
at that precedence (strict `<` in the loop makes them left-associative);
`(` in infix position is a call. -/
def Parser.parse_infix_form :
    Nat → Expression → Parser → Except ParserError Expression × Parser
  | 0, _, p => (.error p.fuelError, p)
  | fuel + 1, lhs, p =>
    match p.current_token.token_type with
    | .LParen => Parser.parse_call_expression fuel lhs p
    | tt =>
      let operator : Option InfixOperator :=
        match tt with
        | .Eq => some .Equal
        | .NotEq => some .NotEqual
        | .Plus => some .Add
        | .Minus => some .Sub
        | .Asterisk => some .Mult
        | .Slash => some .Div
        | .GT => some .GreaterThan
        | .LT => some .LessThan
        | .Modulo => some .Modulo
        | _ => none
      match operator with
      | some operator =>
        let precedence := Precedence.fromToken p.current_token
        let p1 := p.next_token
        match Parser.parse_expression fuel precedence p1 with
        | (.ok rhs, p2) => (.ok (.InfixExpr lhs operator rhs), p2)
        | (.error e, p2) => (.error e, p2)
      | none =>
        (.error (ParserError.new ("unexpected token " ++ tt.displayStr)
          p.current_token.location), p)

/-- Parse a call expression, from src/parser/parser.rs (`parse_call_expression`). -/
def Parser.parse_call_expression :
    Nat → Expression → Parser → Except ParserError Expression × Parser
  | 0, _, p => (.error p.fuelError, p)
  | fuel + 1, function, p =>
    match Parser.parse_call_arguments fuel p with
    | (.ok arguments, p1) => (.ok (.Call function arguments), p1)
    | (.error e, p1) => (.error e, p1)

/-- Parse a call's argument list, from src/parser/parser.rs
(`parse_call_arguments`): empty list on an immediate `)`, else one
expression followed by `, expression` repetitions, closed by `)`. -/
def Parser.parse_call_arguments :
    Nat → Parser → Except ParserError (List Expression) × Parser
  | 0, p => (.error p.fuelError, p)
  | fuel + 1, p =>
    if p.peeking_token.token_type = .RParen then (.ok [], p.next_token)
    else
      let p1 := p.next_token
      match Parser.parse_expression fuel .lowest p1 with
      | (.ok first, p2) => Parser.parse_call_arguments_go fuel [first] p2
      | (.error e, p2) => (.error e, p2)

/-- The `while peek == Comma` loop of `parse_call_arguments`, then the
closing `expect_peek!(RParen)`. -/
def Parser.parse_call_arguments_go :
    Nat → List Expression → Parser → Except ParserError (List Expression) × Parser
  | 0, _, p => (.error p.fuelError, p)
  | fuel + 1, arguments, p =>
    if p.peeking_token.token_type = .Comma then
      let p1 := p.next_token.next_token
      match Parser.parse_expression fuel .lowest p1 with
      | (.ok arg, p2) => Parser.parse_call_arguments_go fuel (arguments ++ [arg]) p2
      | (.error e, p2) => (.error e, p2)
    else
      match p.expect_peek .RParen with
      | (.ok _, p1) => (.ok arguments, p1)
      | (.error e, p1) => (.error e, p1)

/-- Parse a function literal, from src/parser/parser.rs (`parse_function_literal`). -/
def Parser.parse_function_literal : Nat → Parser → Except ParserError Expression × Parser
  | 0, p => (.error p.fuelError, p)
  | fuel + 1, p =>
    match p.expect_peek .LParen with
    | (.ok _, p1) =>
      match Parser.parse_function_params fuel p1 with
      | (.ok parameters, p2) =>
        match p2.expect_peek .LBrace with
        | (.ok _, p3) =>
          match Parser.parse_block_statement fuel p3 with
          | (.ok body, p4) => (.ok (.Function parameters body), p4)
          | (.error e, p4) => (.error e, p4)
        | (.error e, p3) => (.error e, p3)
      | (.error e, p2) => (.error e, p2)
    | (.error e, p1) => (.error e, p1)

/-- Parse a parameter list, from src/parser/parser.rs
(`parse_function_params`): empty on an immediate `)`; otherwise advance and
run the identifier-collecting loop. -/
def Parser.parse_function_params : Nat → Parser → Except ParserError (List String) × Parser
  | 0, p => (.error p.fuelError, p)
  | fuel + 1, p =>
    if p.peeking_token.token_type = .RParen then (.ok [], p.next_token)
    else Parser.parse_function_params_go fuel [] p.next_token

/-- The `while let Identifier` loop of `parse_function_params`: push the
identifier, advance, and skip a comma only if one happens to be present. -/
def Parser.parse_function_params_go :
    Nat → List String → Parser → Except ParserError (List String) × Parser
  | 0, _, p => (.error p.fuelError, p)
  | fuel + 1, params, p =>
    match p.current_token.token_type with
    | .Identifier identifier =>
      let p1 := p.next_token
      let p2 := if p1.current_token.token_type = .Comma then p1.next_token else p1
      Parser.parse_function_params_go fuel (params ++ [identifier]) p2
    | _ => (.ok params, p)

/-- Parse an if expression, from src/parser/parser.rs (`parse_if_expression`). -/
def Parser.parse_if_expression : Nat → Parser → Except ParserError Expression × Parser
  | 0, p => (.error p.fuelError, p)
  | fuel + 1, p =>
    match p.expect_peek .LParen with
    | (.ok _, p1) =>
      let p2 := p1.next_token
      match Parser.parse_expression fuel .lowest p2 with
      | (.ok condition, p3) =>
        match p3.expect_peek .RParen with
        | (.ok _, p4) =>
          match p4.expect_peek .LBrace with
          | (.ok _, p5) =>
            match Parser.parse_block_statement fuel p5 with
            | (.ok consequence, p6) =>
              if p6.peeking_token.token_type = .Else then
                let p7 := p6.next_token
                match p7.expect_peek .LBrace with
                | (.ok _, p8) =>
                  match Parser.parse_block_statement fuel p8 with
                  | (.ok alternative, p9) =>
                    (.ok (.If condition consequence (some alternative)), p9)
                  | (.error e, p9) => (.error e, p9)
                | (.error e, p8) => (.error e, p8)
              else (.ok (.If condition consequence none), p6)
            | (.error e, p6) => (.error e, p6)
          | (.error e, p5) => (.error e, p5)
        | (.error e, p4) => (.error e, p4)
      | (.error e, p3) => (.error e, p3)
    | (.error e, p1) => (.error e, p1)

/-- Parse a block, from src/parser/parser.rs (`parse_block_statement`):
advance past `{`, then collect statements until `}` or `EOF`. -/
def Parser.parse_block_statement : Nat → Parser → Except ParserError (List Statement) × Parser
  | 0, p => (.error p.fuelError, p)
  | fuel + 1, p => Parser.parse_block_statement_go fuel [] p.next_token

/-- The statement-collecting loop of `parse_block_statement`. -/
def Parser.parse_block_statement_go :
    Nat → List Statement → Parser → Except ParserError (List Statement) × Parser
  | 0, _, p => (.error p.fuelError, p)
  | fuel + 1, statements, p =>
    if p.current_token.token_type ≠ .RBrace ∧ p.current_token.token_type ≠ .EOF then
      match Parser.parse_statement fuel p with
      | (.ok statement, p1) =>
        Parser.parse_block_statement_go fuel (statements ++ [statement]) p1.next_token
      | (.error e, p1) => (.error e, p1)
    else (.ok statements, p)

/-- Parse a parenthesized expression, from src/parser/parser.rs
(`parse_grouped_expression`). -/
def Parser.parse_grouped_expression : Nat → Parser → Except ParserError Expression × Parser
  | 0, p => (.error p.fuelError, p)
  | fuel + 1, p =>
    let p1 := p.next_token
    match Parser.parse_expression fuel .lowest p1 with
    | (.ok expression, p2) =>
      match p2.expect_peek .RParen with
      | (.ok _, p3) => (.ok expression, p3)
      | (.error e, p3) => (.error e, p3)
    | (.error e, p2) => (.error e, p2)

/-- Parse `!`/`-` prefix expressions, from src/parser/parser.rs
(`parse_prefix_expression`): pick the operator, advance, parse the operand
at `PREFIX` precedence. -/
def Parser.parse_prefix_expression : Nat → Parser → Except ParserError Expression × Parser
  | 0, p => (.error p.fuelError, p)
  | fuel + 1, p =>
    let operator : Option PrefixOperator :=
      match p.current_token.token_type with
      | .Bang => some .Not
      | .Minus => some .Negative
      | _ => none
    match operator with
    | some operator =>
      let p1 := p.next_token
      match Parser.parse_expression fuel .prefixLevel p1 with
      | (.ok expression, p2) => (.ok (.PrefixExpr operator expression), p2)
      | (.error e, p2) => (.error e, p2)
    | none =>
      (.error (ParserError.new
        ("unexpected token " ++ p.current_token.token_type.displayStr)
        p.current_token.location), p)
end

/-- The statement loop of src/parser/parser.rs (`parse_program`): until the
current token is `EOF`, parse a statement, pushing it onto the program on
success or recording the error, then advance to the next statement
boundary. -/
def Parser.parse_program_go : Nat → Program → Parser → Program × Parser
  | 0, prog, p => (prog, p)
  | fuel + 1, prog, p =>
    if p.current_token.token_type = .EOF then (prog, p)
    else
      let (res, p1) := Parser.parse_statement fuel p
      let (prog', p2) :=
        match res with
        | .ok stmt => (Program.mk (prog.statements ++ [stmt]), p1)
        | .error err => (prog, { p1 with errors := p1.errors ++ [err] })
      Parser.parse_program_go fuel prog' (p2.advance_tokens fuel)

/-- Parse a whole program, from src/parser/parser.rs (`parse_program`). -/
def Parser.parse_program (fuel : Nat) (p : Parser) : Program × Parser :=
  Parser.parse_program_go fuel ⟨[]⟩ p

/-- Lex and parse an input string, as the pipeline does
(`Parser::new(Lexer::new(input)).parse_program()`), with fuel ample for
every concrete input below. -/
def runParser (input : String) : Program × Parser :=
  Parser.parse_program 50 (Parser.new (Lexer.new input))

/-- Runtime values, from src/evaluator/object.rs.  The
`Rc<RefCell<Environment>>` a function value captures is an index into the
environment arena (`Store`). -/
inductive Object where
  | Integer (i : Int)
  | Boolean (b : Bool)
  | ReturnValue (o : Object)
  | Null
  | Function (parameters : List String) (body : List Statement) (environment : Nat)

/-- The `Object::return_value` constructor helper of src/evaluator/object.rs. -/
def Object.return_value (value : Object) : Object := .ReturnValue value

/-- One environment, from src/evaluator/environment.rs: a name-to-value map
(the `HashMap` is modelled by an association list whose `insert`
overwrites) and an optional reference to the enclosing environment. -/
structure Env where
  store : List (String × Object)
  outer : Option Nat

/-- The arena of all allocated environments; an `Rc<RefCell<Environment>>`
is an index into it. -/
abbrev Store := List Env

/-- `HashMap::get` on the modelled store of one environment. -/
def lookupAssoc (name : String) : List (String × Object) → Option Object
  | [] => none
  | (k, v) :: rest => if k = name then some v else lookupAssoc name rest

/-- `HashMap::insert` on the modelled store of one environment: overwrite
the binding if the name is present, else append it. -/
def insertAssoc (name : String) (v : Object) : List (String × Object) → List (String × Object)
  | [] => [(name, v)]
  | (k, w) :: rest =>
    if k = name then (k, v) :: rest else (k, w) :: insertAssoc name v rest

/-- `Environment::new` of src/evaluator/environment.rs: allocate a fresh
empty environment with no outer; returns the extended arena and the new
reference. -/
def Environment.new (σ : Store) : Store × Nat :=
  (σ ++ [{ store := [], outer := none }], σ.length)

/-- `Environment::with_outer` of src/evaluator/environment.rs: allocate a
fresh empty environment holding a shared reference to `outer`. -/
def Environment.with_outer (σ : Store) (outer : Nat) : Store × Nat :=
  (σ ++ [{ store := [], outer := some outer }], σ.length)

/-- The outer-chain walk of `Environment::get`.  The fuel only bounds the
walk (Rust recurses through `Rc` references, which cannot cycle because
`with_outer` only ever points a new environment at an existing one); the
wrapper supplies `σ.length + 1` fuel, enough for any chain in a store the
evaluator builds. -/
def envGetFuel (σ : Store) : Nat → Nat → String → Option Object
  | 0, _, _ => none
  | fuel + 1, i, name =>
    match σ[i]? with
    | none => none
    | some e =>
      match lookupAssoc name e.store with
      | some val => some val
      | none =>
        match e.outer with
        | some outer => envGetFuel σ fuel outer name
        | none => none

/-- `Environment::get` of src/evaluator/environment.rs: look the name up in
the local store, else recurse into the outer environment. -/
def Environment.get (σ : Store) (i : Nat) (name : String) : Option Object :=
  envGetFuel σ (σ.length + 1) i name

/-- `Environment::set` of src/evaluator/environment.rs: insert or overwrite
in the local store of environment `i` only; no other environment is
touched. -/
def Environment.set (σ : Store) (i : Nat) (name : String) (val : Object) : Store :=
  match σ[i]? with
  | some e => σ.set i { e with store := insertAssoc name val e.store }
  | none => σ

/-- Evaluation outcome: `ok` and `err` model the
`Result<Object, EvaluationError>` of src/evaluator/evaluator.rs, and
`panic` models a Rust panic (reached by `todo!()`, by `%` with divisor 0,
and by debug-profile arithmetic overflow), which aborts instead of
returning. -/
inductive Res (α : Type) where
  | ok (a : α)
  | err (msg : String)
  | panic (msg : String)

def i64Min : Int := -9223372036854775808
def i64Max : Int := 9223372036854775807
def inI64 (n : Int) : Bool := decide (i64Min ≤ n ∧ n ≤ i64Max)

/-- Display of a value, from src/evaluator/object.rs (`impl Display for
Object`): integers and booleans print their literal form, `null` prints
`null`, a return wrapper prints as its payload, and a function prints
`fn(<params>) {\n<stmts>\n}`.  The fuel bounds nesting and is ample for
every value reached below. -/
def objectDisplay : Nat → Object → String
  | 0, _ => ""
  | fuel + 1, o =>
    match o with
    | .Integer value => toString value
    | .Boolean value => if value then "true" else "false"
    | .ReturnValue value => objectDisplay fuel value
    | .Null => "null"
    | .Function parameters body _ =>
      "fn(" ++ String.intercalate ", " parameters ++ ") \x7b\n" ++
        String.join (body.map (fun s => statementDisplay 50 s ++ "\n")) ++ "\x7d"

def Object.display (o : Object) : String := objectDisplay 50 o

/-- AST node fed to `eval`, from src/parser/ast/node.rs. -/
inductive Node where
  | Expression (e : Expression)
  | Statement (s : Statement)
  | Program (p : Program)

/-- Truthiness, from src/evaluator/evaluator.rs (`is_truthy`): zero and
`false` and `Null` are falsy, other integers and `true` are truthy, a
return wrapper delegates to its payload — and the `Function` arm is
`todo!()`, a panic. -/
def is_truthy : Object → Res Bool
  | .Integer integer => .ok (decide (integer ≠ 0))
  | .Boolean boolean => .ok boolean
  | .Null => .ok false
  | .ReturnValue value => is_truthy value
  | .Function _ _ _ => .panic "not yet implemented"

/-- Identifier lookup, from src/evaluator/evaluator.rs (`eval_identifier`). -/
def eval_identifier (identifier : String) (environment : Nat) (σ : Store) :
    Res (Object × Store) :=
  match Environment.get σ environment identifier with
  | some object => .ok (object, σ)
  | none => .err ("identifier not found: " ++ identifier)

/-- Function-literal evaluation, from src/evaluator/evaluator.rs
(`eval_function`): the produced `Function` value captures a freshly
allocated empty environment whose outer is the current one. -/
def eval_function (parameters : List String) (body : List Statement)
    (environment : Nat) (σ : Store) : Res (Object × Store) :=
  let (σ', captured) := Environment.with_outer σ environment
  .ok (.Function parameters body captured, σ')

/-- The `!` prefix operator, from src/evaluator/evaluator.rs
(`eval_bang_operator_prefix_expression`). -/
def eval_bang_operator_prefix_expression : Object → Res Object
  | .Boolean boolean => .ok (.Boolean !boolean)
  | .Integer integer => .ok (.Boolean (decide (integer = 0)))
  | x => .err ("invalid operation: !" ++ x.display)

/-- The `-` prefix operator, from src/evaluator/evaluator.rs
(`eval_negative_operator_prefix_expression`); `-i64::MIN` overflows and
panics in a debug build. -/
def eval_negative_operator_prefix_expression : Object → Res Object
  | .Integer integer =>
    if integer = i64Min then .panic "attempt to negate with overflow"
    else .ok (.Integer (-integer))
  | x => .err ("invalid operation: -" ++ x.display)

/-- The operand pairing table of src/evaluator/evaluator.rs
(`eval_infix_expression`, after both operands are evaluated).  Integer
arithmetic follows Rust debug-profile `i64` semantics: `+ - *` panic when
the result leaves `i64`, `/` is guarded against a zero divisor by the
source (returning the `cannot divide by zero` error) but panics on
`i64::MIN / -1`, and `%` has no zero guard in the source, so a zero
divisor panics, as does `i64::MIN % -1`.  `Int.tdiv`/`Int.tmod` are the
truncated division and remainder that Rust's `/` and `%` compute. -/
def eval_infix_objects (operator : InfixOperator) (lhs rhs : Object) : Res Object :=
  match operator, lhs, rhs with
  | .Add, .Integer int1, .Integer int2 =>
    if inI64 (int1 + int2) then .ok (.Integer (int1 + int2))
    else .panic "attempt to add with overflow"
  | .Sub, .Integer int1, .Integer int2 =>
    if inI64 (int1 - int2) then .ok (.Integer (int1 - int2))
    else .panic "attempt to subtract with overflow"
  | .Mult, .Integer int1, .Integer int2 =>
    if inI64 (int1 * int2) then .ok (.Integer (int1 * int2))
    else .panic "attempt to multiply with overflow"
  | .Div, .Integer int1, .Integer int2 =>
    if int2 = 0 then .err "cannot divide by zero"
    else if int1 = i64Min ∧ int2 = -1 then .panic "attempt to divide with overflow"
    else .ok (.Integer (Int.tdiv int1 int2))
  | .Modulo, .Integer int1, .Integer int2 =>
    if int2 = 0 then .panic "attempt to calculate the remainder with a divisor of zero"
    else if int1 = i64Min ∧ int2 = -1 then
      .panic "attempt to calculate the remainder with overflow"
    else .ok (.Integer (Int.tmod int1 int2))
  | .Equal, .Integer int1, .Integer int2 => .ok (.Boolean (decide (int1 = int2)))
  | .Equal, .Boolean bool1, .Boolean bool2 => .ok (.Boolean (bool1 == bool2))
  | .NotEqual, .Integer int1, .Integer int2 => .ok (.Boolean (decide (int1 ≠ int2)))
  | .GreaterThan, .Integer int1, .Integer int2 => .ok (.Boolean (decide (int1 > int2)))
  | .LessThan, .Integer int1, .Integer int2 => .ok (.Boolean (decide (int1 < int2)))
  | .NotEqual, .Boolean bool1, .Boolean bool2 => .ok (.Boolean (bool1 != bool2))
  | operator, lhs, rhs =>
    .err ("invalid operation: " ++ lhs.display ++ " " ++ operator.displayStr ++ " " ++
      rhs.display)

mutual
/-- Top dispatch of src/evaluator/evaluator.rs (`eval`): a `Program` node
evaluates its statement list.  Every recursive call steps the fuel down by
one; exhausted fuel is the host-stack-overflow analogue. -/
def evalNode : Nat → Node → Nat → Store → Res (Object × Store)
  | 0, _, _, _ => .panic "out of fuel"
  | fuel + 1, node, environment, σ =>
    match node with
    | .Expression expression => eval_expression fuel expression environment σ
    | .Statement statement => eval_statement fuel statement environment σ
    | .Program program => eval_statements fuel program.statements none environment σ

  termination_by structural fuel _ _ _ => fuel
/-- Statement-list evaluation, from src/evaluator/evaluator.rs
(`eval_statements`): evaluate in order keeping the last value (the
accumulator models the loop's `result` variable, initially `none`); a
statement that yields `ReturnValue` stops the list immediately and the
wrapper is returned unchanged; an empty list yields `Null`. -/
def eval_statements : Nat → List Statement → Option Object → Nat → Store → Res (Object × Store)
  | 0, _, _, _, _ => .panic "out of fuel"
  | _ + 1, [], result, _, σ => .ok (result.getD .Null, σ)
  | fuel + 1, statement :: rest, _result, environment, σ =>
    match evalNode fuel (.Statement statement) environment σ with
    | .ok (evaluated, σ') =>
      match evaluated with
      | .ReturnValue v => .ok (.ReturnValue v, σ')
      | _ => eval_statements fuel rest (some evaluated) environment σ'
    | .err m => .err m
    | .panic m => .panic m

  termination_by structural fuel _ _ _ _ => fuel
/-- Statement dispatch, from src/evaluator/evaluator.rs (`eval_statement`). -/
def eval_statement : Nat → Statement → Nat → Store → Res (Object × Store)
  | 0, _, _, _ => .panic "out of fuel"
  | fuel + 1, statement, environment, σ =>
    match statement with
    | .Let name value => eval_let_statement fuel name value environment σ
    | .Return value =>
      match evalNode fuel (.Expression value) environment σ with
      | .ok (v, σ') => .ok (Object.return_value v, σ')
      | .err m => .err m
      | .panic m => .panic m
    | .Expression expression => evalNode fuel (.Expression expression) environment σ
    | .Block statements => eval_statements fuel statements none environment σ

  termination_by structural fuel _ _ _ => fuel
/-- Let binding, from src/evaluator/evaluator.rs (`eval_let_statement`):
evaluate the value in the current environment, bind the name by a local
`set` on that same environment, and yield the value. -/
def eval_let_statement : Nat → String → Expression → Nat → Store → Res (Object × Store)
  | 0, _, _, _, _ => .panic "out of fuel"
  | fuel + 1, name, value, environment, σ =>
    match evalNode fuel (.Expression value) environment σ with
    | .ok (v, σ') => .ok (v, Environment.set σ' environment name v)
    | .err m => .err m
    | .panic m => .panic m

  termination_by structural fuel _ _ _ _ => fuel
/-- Expression dispatch, from src/evaluator/evaluator.rs (`eval_expression`). -/
def eval_expression : Nat → Expression → Nat → Store → Res (Object × Store)
  | 0, _, _, _ => .panic "out of fuel"
  | fuel + 1, expression, environment, σ =>
    match expression with
    | .Int int => .ok (.Integer int, σ)
    | .Bool boolean => .ok (.Boolean boolean, σ)
    | .Identifier identifier => eval_identifier identifier environment σ
    | .If condition consequence alternative =>
      eval_if_expression fuel condition consequence alternative environment σ
    | .Function parameters body => eval_function parameters body environment σ
    | .Call function arguments => eval_call fuel function arguments environment σ
    | .PrefixExpr operator rhs => eval_prefix_expression fuel operator rhs environment σ
    | .InfixExpr lhs operator rhs => eval_infix_expression fuel operator lhs rhs environment σ
    | .Null => .ok (.Null, σ)

  termination_by structural fuel _ _ _ => fuel
/-- Call evaluation, from src/evaluator/evaluator.rs (`eval_call`).  Note
the order and the environments, faithful to the source: (1) the callee is
evaluated in the caller's environment and must be a `Function` — the
`let Object::Function { parameters, environment, body } = function`
destructuring rebinds `environment` to the function's captured
environment from here on; (2) the arity check runs before any argument is
evaluated; (3) a fresh local scope is allocated with the captured
environment as outer; (4) the arguments are evaluated left-to-right in
the captured environment (the shadowed `environment`), each being bound
into the local scope as it is produced, the first error
short-circuiting; (5) the body runs as a block in the local scope and a
`ReturnValue` result is unwrapped exactly once. -/
def eval_call : Nat → Expression → List Expression → Nat → Store → Res (Object × Store)
  | 0, _, _, _, _ => .panic "out of fuel"
  | fuel + 1, function, arguments, environment, σ =>
    match evalNode fuel (.Expression function) environment σ with
    | .ok (f, σ1) =>
      match f with
      | .Function parameters body fenv =>
        if parameters.length ≠ arguments.length then
          .err ("wrong number of arguments: got " ++ toString arguments.length ++
            ", but function wants " ++ toString parameters.length)
        else
          let (σ2, local_env) := Environment.with_outer σ1 fenv
          match eval_call_bind_args fuel parameters arguments fenv local_env σ2 with
          | .ok σ3 =>
            match evalNode fuel (.Statement (.Block body)) local_env σ3 with
            | .ok (.ReturnValue value, σ4) => .ok (value, σ4)
            | .ok (value, σ4) => .ok (value, σ4)
            | .err m => .err m
            | .panic m => .panic m
          | .err m => .err m
          | .panic m => .panic m
      | _ => .err ("not a function: " ++ f.display)
    | .err m => .err m
    | .panic m => .panic m

  termination_by structural fuel _ _ _ _ => fuel
/-- The parameter/argument zip loop of `eval_call`: evaluate each argument
in the function's captured environment `fenv` and `set` it into the local
scope; the zip stops at the shorter list (the arity check has already
ensured equal lengths). -/
def eval_call_bind_args : Nat → List String → List Expression → Nat → Nat → Store → Res Store
  | 0, _, _, _, _, _ => .panic "out of fuel"
  | fuel + 1, parameter :: parameters, argument :: arguments, fenv, local_env, σ =>
    match evalNode fuel (.Expression argument) fenv σ with
    | .ok (v, σ') =>
      eval_call_bind_args fuel parameters arguments fenv local_env
        (Environment.set σ' local_env parameter v)
    | .err m => .err m
    | .panic m => .panic m
  | _ + 1, _, _, _, _, σ => .ok σ

  termination_by structural fuel _ _ _ _ _ => fuel
/-- If evaluation, from src/evaluator/evaluator.rs (`eval_if_expression`):
evaluate the condition, take the consequence if truthy, the alternative if
present, else `Null`. -/
def eval_if_expression :
    Nat → Expression → List Statement → Option (List Statement) → Nat → Store →
      Res (Object × Store)
  | 0, _, _, _, _, _ => .panic "out of fuel"
  | fuel + 1, condition, consequence, alternative, environment, σ =>
    match evalNode fuel (.Expression condition) environment σ with
    | .ok (c, σ1) =>
      match is_truthy c with
      | .ok true => eval_statements fuel consequence none environment σ1
      | .ok false =>
        match alternative with
        | some alt => eval_statements fuel alt none environment σ1
        | none => .ok (.Null, σ1)
      | .err m => .err m
      | .panic m => .panic m
    | .err m => .err m
    | .panic m => .panic m

  termination_by structural fuel _ _ _ _ _ => fuel
/-- Prefix evaluation, from src/evaluator/evaluator.rs
(`eval_prefix_expression`). -/
def eval_prefix_expression : Nat → PrefixOperator → Expression → Nat → Store →
    Res (Object × Store)
  | 0, _, _, _, _ => .panic "out of fuel"
  | fuel + 1, operator, rhs, environment, σ =>
    match evalNode fuel (.Expression rhs) environment σ with
    | .ok (r, σ') =>
      match operator with
      | .Not =>
        match eval_bang_operator_prefix_expression r with
        | .ok v => .ok (v, σ')
        | .err m => .err m
        | .panic m => .panic m
      | .Negative =>
        match eval_negative_operator_prefix_expression r with
        | .ok v => .ok (v, σ')
        | .err m => .err m
        | .panic m => .panic m
    | .err m => .err m
    | .panic m => .panic m

  termination_by structural fuel _ _ _ _ => fuel
/-- Infix evaluation, from src/evaluator/evaluator.rs
(`eval_infix_expression`): evaluate the left then the right operand in the
current environment, then apply the pairing table. -/
def eval_infix_expression : Nat → InfixOperator → Expression → Expression → Nat → Store →
    Res (Object × Store)
  | 0, _, _, _, _, _ => .panic "out of fuel"
  | fuel + 1, operator, lhs, rhs, environment, σ =>
    match evalNode fuel (.Expression lhs) environment σ with
    | .ok (l, σ1) =>
      match evalNode fuel (.Expression rhs) environment σ1 with
      | .ok (r, σ2) =>
        match eval_infix_objects operator l r with
        | .ok v => .ok (v, σ2)
        | .err m => .err m
        | .panic m => .panic m
      | .err m => .err m
      | .panic m => .panic m
    | .err m => .err m
    | .panic m => .panic m
  termination_by structural fuel _ _ _ _ _ => fuel
end

/-- Evaluate a whole program the way the pipeline does: a fresh
`Environment::new` and `eval(program, env)`. -/
def runProgram (fuel : Nat) (program : Program) : Res (Object × Store) :=
  let (σ, env) := Environment.new []
  evalNode fuel (.Program program) env σ

/-- The value component of a successful evaluation. -/
def Res.valueOf : Res (Object × Store) → Option Object
  | .ok (v, _) => some v
  | _ => none

/-- The message of an error outcome. -/
def Res.errOf {α : Type} : Res α → Option String
  | .err m => some m
  | _ => none

/-- The message of a panic outcome. -/
def Res.panicMsg {α : Type} : Res α → Option String
  | .panic m => some m
  | _ => none

/-! Environment lemmas. -/

theorem lookupAssoc_insertAssoc_self (name : String) (v : Object)
    (l : List (String × Object)) :
    lookupAssoc name (insertAssoc name v l) = some v := by
  induction l with
  | nil => simp [insertAssoc, lookupAssoc]
  | cons kv rest ih =>
    obtain ⟨k, w⟩ := kv
    by_cases hk : k = name
    · simp [insertAssoc, lookupAssoc, hk]
    · simp [insertAssoc, lookupAssoc, hk, ih]

theorem envGetFuel_local (σ : Store) (fuel i : Nat) (e : Env) (name : String) (v : Object)
    (he : σ[i]? = some e) (hl : lookupAssoc name e.store = some v) :
    envGetFuel σ (fuel + 1) i name = some v := by
  simp [envGetFuel, he, hl]

theorem envGetFuel_outer (σ : Store) (fuel i o : Nat) (e : Env) (name : String)
    (he : σ[i]? = some e) (hl : lookupAssoc name e.store = none) (ho : e.outer = some o) :
    envGetFuel σ (fuel + 1) i name = envGetFuel σ fuel o name := by
  simp [envGetFuel, he, hl, ho]

theorem envGetFuel_root (σ : Store) (fuel i : Nat) (e : Env) (name : String)
    (he : σ[i]? = some e) (ho : e.outer = none) :
    envGetFuel σ (fuel + 1) i name = lookupAssoc name e.store := by
  unfold envGetFuel
  rw [he]
  cases hl : lookupAssoc name e.store <;> simp [hl, ho]

/-- C9: in every environment chain E1 ← E2 ← E3 (inner to outer through the
`outer` reference), `get` on the innermost environment returns the
most-local binding, walking outwards only when the name is absent locally;
`set` on the innermost environment rewrites only that environment's local
store, leaving every outer environment unchanged even when the name is
already bound there.  (The index-ordering hypotheses hold for every chain
the evaluator builds: `with_outer` always points a new environment at an
existing, lower index.) -/
theorem C9_env_chain (σ : Store) (i1 i2 i3 : Nat) (e1 e2 e3 : Env) (name : String)
    (h3 : σ[i3]? = some e3) (ho3 : e3.outer = some i2)
    (h2 : σ[i2]? = some e2) (ho2 : e2.outer = some i1)
    (h1 : σ[i1]? = some e1) (ho1 : e1.outer = none)
    (h12 : i1 < i2) (h23 : i2 < i3) :
    (∀ v, lookupAssoc name e3.store = some v → Environment.get σ i3 name = some v)
    ∧ (lookupAssoc name e3.store = none →
        (∀ v, lookupAssoc name e2.store = some v → Environment.get σ i3 name = some v)
        ∧ (lookupAssoc name e2.store = none →
            Environment.get σ i3 name = lookupAssoc name e1.store))
    ∧ (∀ v, (Environment.set σ i3 name v)[i3]? =
          some { e3 with store := insertAssoc name v e3.store }
        ∧ (Environment.set σ i3 name v)[i2]? = some e2
        ∧ (Environment.set σ i3 name v)[i1]? = some e1
        ∧ Environment.get (Environment.set σ i3 name v) i3 name = some v) := by
  have hlen3 : i3 < σ.length := (List.getElem?_eq_some.mp h3).1
  obtain ⟨m, hm⟩ : ∃ m, σ.length = (m + 1) + 1 := ⟨σ.length - 2, by omega⟩
  refine ⟨?_, ?_, ?_⟩
  · intro v hv
    exact envGetFuel_local σ σ.length i3 e3 name v h3 hv
  · intro hmiss3
    have step3 : Environment.get σ i3 name = envGetFuel σ σ.length i2 name :=
      envGetFuel_outer σ σ.length i3 i2 e3 name h3 hmiss3 ho3
    constructor
    · intro v hv
      rw [step3, hm]
      exact envGetFuel_local σ (m + 1) i2 e2 name v h2 hv
    · intro hmiss2
      rw [step3, hm, envGetFuel_outer σ (m + 1) i2 i1 e2 name h2 hmiss2 ho2]
      exact envGetFuel_root σ m i1 e1 name h1 ho1
  · intro v
    have hset : Environment.set σ i3 name v =
        σ.set i3 { e3 with store := insertAssoc name v e3.store } := by
      unfold Environment.set
      rw [h3]
    refine ⟨?_, ?_, ?_, ?_⟩
    · rw [hset]
      exact List.getElem?_set_self hlen3
    · have hne : i3 ≠ i2 := by omega
      rw [hset, List.getElem?_set_ne hne]
      exact h2
    · have hne : i3 ≠ i1 := by omega
      rw [hset, List.getElem?_set_ne hne]
      exact h1
    · have hlen' : (Environment.set σ i3 name v).length = σ.length := by
        rw [hset, List.length_set]
      unfold Environment.get
      rw [hlen']
      refine envGetFuel_local _ σ.length i3
        { e3 with store := insertAssoc name v e3.store } name v ?_ ?_
      · rw [hset]
        exact List.getElem?_set_self hlen3
      · exact lookupAssoc_insertAssoc_self name v e3.store

/-- Concrete chain used to instantiate `C9_env_chain`. -/
def envChainE1 : Env := { store := [("a", .Integer 1), ("b", .Integer 7)], outer := none }
def envChainE2 : Env := { store := [("a", .Integer 2)], outer := some 0 }
def envChainE3 : Env := { store := [], outer := some 1 }
def envChainStore : Store := [envChainE1, envChainE2, envChainE3]

/-- C9 witness: on the concrete chain, `get "a"` from the innermost
environment returns E2's binding (the most local one present), `get "b"`
falls through to E1, and `set "a"` on the innermost environment leaves E1
and E2 untouched while the subsequent local `get` sees the new value. -/
theorem C9_env_chain_witness :
    Environment.get envChainStore 2 "a" = some (.Integer 2)
    ∧ Environment.get envChainStore 2 "b" = some (.Integer 7)
    ∧ (Environment.set envChainStore 2 "a" (.Integer 9))[1]? = some envChainE2
    ∧ (Environment.set envChainStore 2 "a" (.Integer 9))[0]? = some envChainE1
    ∧ Environment.get (Environment.set envChainStore 2 "a" (.Integer 9)) 2 "a" =
        some (.Integer 9) := by
  have ha := C9_env_chain envChainStore 0 1 2 envChainE1 envChainE2 envChainE3 "a"
    rfl rfl rfl rfl rfl rfl (by omega) (by omega)
  have hb := C9_env_chain envChainStore 0 1 2 envChainE1 envChainE2 envChainE3 "b"
    rfl rfl rfl rfl rfl rfl (by omega) (by omega)
  refine ⟨(ha.2.1 rfl).1 (.Integer 2) rfl, ?_, (ha.2.2 (.Integer 9)).2.1,
    (ha.2.2 (.Integer 9)).2.2.1, (ha.2.2 (.Integer 9)).2.2.2⟩
  rw [(hb.2.1 rfl).2 rfl]
  rfl

/-! Lexer keyword table (C3). -/

/-- C3: the keyword table the lexer consults maps `let`, `fn`, `if`,
`else`, `return`, `true`, `false` to their keyword tokens and every other
letter/underscore word to an `Identifier` — but it has no entry for
`null`, so the maximal letter run `null` is emitted as
`Identifier("null")` rather than the `Null` keyword token (the claimed
`Null` emission is what `parse_prefix` and the `test_parse_null` parser
test expect). -/
theorem C3_keyword_table :
    (Lexer.next_token (Lexer.new "null")).1.token_type = .Identifier "null"
    ∧ (Lexer.next_token (Lexer.new "let")).1.token_type = .Let
    ∧ (Lexer.next_token (Lexer.new "fn")).1.token_type = .Function
    ∧ (Lexer.next_token (Lexer.new "if")).1.token_type = .If
    ∧ (Lexer.next_token (Lexer.new "else")).1.token_type = .Else
    ∧ (Lexer.next_token (Lexer.new "return")).1.token_type = .Return
    ∧ (Lexer.next_token (Lexer.new "true")).1.token_type = .True
    ∧ (Lexer.next_token (Lexer.new "false")).1.token_type = .False
    ∧ (Lexer.next_token (Lexer.new "foo")).1.token_type = .Identifier "foo"
    ∧ (Lexer.next_token (Lexer.new "_ab")).1.token_type = .Identifier "_ab"
    ∧ (Lexer.next_token (Lexer.new "letx")).1.token_type = .Identifier "letx"
    ∧ Lexer.lookup_word "null" = .Identifier "null" :=
  ⟨rfl, rfl, rfl, rfl, rfl, rfl, rfl, rfl, rfl, rfl, rfl, rfl⟩

/-! Division and modulo by zero (C2). -/

/-- Singleton store holding one fresh global environment, as
`Environment::new()` produces at the start of a run. -/
def σ0 : Store := [{ store := [], outer := none }]

/-- C2: `Div` with a zero right operand is guarded by the source and
returns the `cannot divide by zero` evaluation error, and both operators
return the truncated quotient/remainder on nonzero divisors — but
`Modulo` has no zero guard: `5 % 0` reaches Rust's `int1 % int2`, which
panics (process abort), not the claimed evaluation error. -/
theorem C2_div_modulo_zero :
    (evalNode 10 (.Expression (.InfixExpr (.Int 10) .Div (.Int 0))) 0 σ0).errOf =
      some "cannot divide by zero"
    ∧ (evalNode 10 (.Expression (.InfixExpr (.Int 5) .Modulo (.Int 0))) 0 σ0).panicMsg =
      some "attempt to calculate the remainder with a divisor of zero"
    ∧ (evalNode 10 (.Expression (.InfixExpr (.Int 5) .Modulo (.Int 0))) 0 σ0).errOf = none
    ∧ (evalNode 10 (.Expression (.InfixExpr (.Int 10) .Div (.Int 3))) 0 σ0).valueOf =
      some (.Integer 3)
    ∧ (evalNode 10 (.Expression (.InfixExpr (.Int 7) .Modulo (.Int 3))) 0 σ0).valueOf =
      some (.Integer 1)
    ∧ eval_infix_objects .Modulo (.Integer 5) (.Integer 0) =
      .panic "attempt to calculate the remainder with a divisor of zero" :=
  ⟨rfl, rfl, rfl, rfl, rfl, rfl⟩

/-! Truthiness (C4). -/

/-- C4: `is_truthy` follows the claimed table on integers, booleans,
`Null` and `ReturnValue` — but its `Function` arm is `todo!()`, so a
function value used as an `if` condition panics instead of being truthy:
`if (fn(){0}) { 1 } else { 2 }` aborts rather than yielding `Integer(1)`. -/
theorem C4_truthiness :
    is_truthy (.Integer 0) = .ok false
    ∧ is_truthy (.Integer 5) = .ok true
    ∧ is_truthy (.Integer (-3)) = .ok true
    ∧ is_truthy (.Boolean false) = .ok false
    ∧ is_truthy (.Boolean true) = .ok true
    ∧ is_truthy .Null = .ok false
    ∧ is_truthy (.ReturnValue (.Integer 0)) = .ok false
    ∧ is_truthy (.ReturnValue (.Boolean true)) = .ok true
    ∧ is_truthy (.Function [] [] 0) = .panic "not yet implemented"
    ∧ (evalNode 20 (.Expression (.If (.Function [] [.Expression (.Int 0)])
        [.Expression (.Int 1)] (some [.Expression (.Int 2)]))) 0 σ0).panicMsg =
      some "not yet implemented"
    ∧ (evalNode 20 (.Expression (.If (.Function [] [.Expression (.Int 0)])
        [.Expression (.Int 1)] (some [.Expression (.Int 2)]))) 0 σ0).valueOf = none :=
  ⟨rfl, rfl, rfl, rfl, rfl, rfl, rfl, rfl, rfl, rfl, rfl⟩

/-! Return-value propagation (C5). -/

/-- Program `fn(){ if(true){ return 10; } return 1; }()`. -/
def unwrapProg : Program := ⟨[.Expression (.Call
  (.Function [] [.Expression (.If (.Bool true) [.Return (.Int 10)] none),
    .Return (.Int 1)]) [])]⟩

/-- Program `return 10; 9`. -/
def topReturnProg : Program := ⟨[.Return (.Int 10), .Expression (.Int 9)]⟩

/-- C5: a statement whose evaluation yields `ReturnValue` stops the
statement list immediately, the wrapper propagating unchanged no matter
what follows; an `If` branch ending in `ReturnValue` bubbles the wrapper
up unchanged; the wrapper is unwrapped exactly once, at the call boundary
(`fn(){ if(true){ return 10; } return 1; }()` evaluates to `Integer 10`),
while a whole-program evaluation ending in a return yields the
still-wrapped `ReturnValue` (`return 10; 9` yields
`ReturnValue(Integer 10)`). -/
theorem C5_return_propagation :
    (∀ fuel s rest result env σ v σ',
        evalNode fuel (.Statement s) env σ = .ok (.ReturnValue v, σ') →
        eval_statements (fuel + 1) (s :: rest) result env σ = .ok (.ReturnValue v, σ'))
    ∧ (∀ fuel cond cons alt env σ c σ₁ v σ₂,
        evalNode fuel (.Expression cond) env σ = .ok (c, σ₁) →
        is_truthy c = .ok true →
        eval_statements fuel cons none env σ₁ = .ok (.ReturnValue v, σ₂) →
        eval_if_expression (fuel + 1) cond cons alt env σ = .ok (.ReturnValue v, σ₂))
    ∧ (runProgram 30 unwrapProg).valueOf = some (.Integer 10)
    ∧ (runProgram 30 topReturnProg).valueOf = some (.ReturnValue (.Integer 10)) := by
  refine ⟨?_, ?_, rfl, rfl⟩
  · intro fuel s rest result env σ v σ' h
    simp [eval_statements, h]
  · intro fuel cond cons alt env σ c σ₁ v σ₂ hc ht hb
    simp [eval_if_expression, hc, ht, hb]

/-- C5 witness: the propagation conjuncts of `C5_return_propagation`
instantiated on concrete statement lists. -/
theorem C5_return_propagation_witness :
    eval_statements 11 [.Return (.Int 10), .Expression (.Int 9)] none 0 σ0 =
      .ok (.ReturnValue (.Integer 10), σ0)
    ∧ eval_if_expression 11 (.Bool true) [.Return (.Int 5)] none 0 σ0 =
      .ok (.ReturnValue (.Integer 5), σ0) :=
  ⟨C5_return_propagation.1 10 (.Return (.Int 10)) [.Expression (.Int 9)] none 0 σ0
      (.Integer 10) σ0 rfl,
    C5_return_propagation.2.1 10 (.Bool true) [.Return (.Int 5)] none 0 σ0
      (.Boolean true) σ0 (.Integer 5) σ0 rfl rfl rfl⟩

/-! Call evaluation order and argument environment (C1). -/

/-- Program `let f = fn(x){ x }; let g = fn(){ let y = 1; f(y) }; g()`:
the argument `y` is bound only in the caller's scope (g's body), not in
f's captured environment chain. -/
def argEnvProg : Program := ⟨[
  .Let "f" (.Function ["x"] [.Expression (.Identifier "x")]),
  .Let "g" (.Function [] [.Let "y" (.Int 1),
    .Expression (.Call (.Identifier "f") [.Identifier "y"])]),
  .Expression (.Call (.Identifier "g") [])]⟩

/-- Program `let f = fn(x){ x }; f(nope, 2)`: wrong arity with an
argument that cannot be evaluated. -/
def arityFirstProg : Program := ⟨[
  .Let "f" (.Function ["x"] [.Expression (.Identifier "x")]),
  .Expression (.Call (.Identifier "f") [.Identifier "nope", .Int 2])]⟩

/-- Program `let f = fn(a,b){ a }; f(nope1, nope2)`: both arguments fail
to evaluate; the first one's error wins. -/
def argOrderProg : Program := ⟨[
  .Let "f" (.Function ["a", "b"] [.Expression (.Identifier "a")]),
  .Expression (.Call (.Identifier "f") [.Identifier "nope1", .Identifier "nope2"])]⟩

/-- C1 counterexample: the claim fails on the code in both of its testable
conjuncts.  In `let f = fn(x){ x }; let g = fn(){ let y = 1; f(y) }; g()`
the argument `y` is bound in the caller's environment at the call, so the
claim predicts `Integer 1`; the code evaluates arguments in the function's
captured environment (`let Object::Function { parameters, environment,
body }` shadows the caller's `environment`) and fails with `identifier
not found: y`.  In `let f = fn(x){ x }; f(nope, 2)` the claim predicts
the argument-evaluation error `identifier not found: nope` (arguments
before arity); the code checks arity first and reports the arity error. -/
theorem C1_counterexample :
    (runProgram 50 argEnvProg).errOf = some "identifier not found: y"
    ∧ (runProgram 50 arityFirstProg).errOf =
      some "wrong number of arguments: got 2, but function wants 1" :=
  ⟨rfl, rfl⟩

/-- C1 (as amended): when the callee of a call evaluates to a `Function`
value, the arity check comes first — a parameter/argument length mismatch
yields the `wrong number of arguments` error no matter what the argument
expressions are; when the arity matches, the arguments are evaluated
left-to-right in the function's captured environment (not the caller's
current one), the first failing argument short-circuiting the call with
its error. -/
theorem C1_call_arity_then_args :
    (∀ fuel f args env σ ps body fenv σ₁,
        evalNode fuel (.Expression f) env σ = .ok (.Function ps body fenv, σ₁) →
        ps.length ≠ args.length →
        eval_call (fuel + 1) f args env σ =
          .err ("wrong number of arguments: got " ++ toString args.length ++
            ", but function wants " ++ toString ps.length))
    ∧ (runProgram 50 argEnvProg).errOf = some "identifier not found: y"
    ∧ (runProgram 50 argOrderProg).errOf = some "identifier not found: nope1" := by
  refine ⟨?_, rfl, rfl⟩
  intro fuel f args env σ ps body fenv σ₁ hf hlen
  simp [eval_call, hf, hlen]

/-- C1 witness: the arity-first conjunct of `C1_call_arity_then_args`
instantiated on a concrete call whose second argument would not even
evaluate. -/
theorem C1_call_arity_then_args_witness :
    eval_call 11 (.Function ["x"] [.Expression (.Identifier "x")])
      [.Identifier "nope", .Int 2] 0 σ0 =
      .err "wrong number of arguments: got 2, but function wants 1" :=
  C1_call_arity_then_args.1 10 (.Function ["x"] [.Expression (.Identifier "x")])
    [.Identifier "nope", .Int 2] 0 σ0 ["x"] [.Expression (.Identifier "x")] 1
    (σ0 ++ [({ store := [], outer := some 0 } : Env)]) rfl (by decide)

/-! Closure capture (C7). -/

/-- Program `let f = fn(){ x }; let x = 5; f()`: the binding for `x` is
created after the closure, in the scope the closure's capture frame
points at. -/
def lateBindProg : Program := ⟨[
  .Let "f" (.Function [] [.Expression (.Identifier "x")]),
  .Let "x" (.Int 5),
  .Expression (.Call (.Identifier "f") [])]⟩

/-- Program `let f = fn(){ f }; f()()`: the closure's body refers to the
closure's own `let` binding. -/
def selfRefProg : Program := ⟨[
  .Let "f" (.Function [] [.Expression (.Identifier "f")]),
  .Expression (.Call (.Call (.Identifier "f") []) [])]⟩

/-- C7: evaluating a function literal produces a `Function` value whose
captured environment is a freshly allocated empty scope whose outer is the
environment current at the literal's evaluation (the new arena slot holds
`store := []`, `outer := some env`); because that scope is shared by
reference (an arena index), a call resolves free variables against the
bindings present in the enclosing scope at call time — `let f = fn(){ x };
let x = 5; f()` yields `Integer 5`, and a recursive closure bound by `let`
sees its own name (`let f = fn(){ f }; f()()` resolves `f` inside the body
and yields the closure value itself). -/
theorem C7_closure_capture :
    (∀ ps body env σ, eval_function ps body env σ =
        .ok (.Function ps body σ.length, σ ++ [{ store := [], outer := some env }]))
    ∧ (runProgram 50 lateBindProg).valueOf = some (.Integer 5)
    ∧ (runProgram 50 selfRefProg).valueOf =
      some (.Function [] [.Expression (.Identifier "f")] 1) := by
  refine ⟨?_, rfl, rfl⟩
  intro ps body env σ
  simp [eval_function, Environment.with_outer]

/-! Parameter-list comma handling (C10). -/

/-- C10: `parse_function_params` consumes identifier tokens in a loop and
skips a comma only if one happens to be present, so a parameter list with
the comma omitted (`fn(x y) { x }`) and one with a trailing comma
(`fn(x,) { x }`) both parse with zero recorded errors and produce the same
parameter lists as `fn(x, y) { x }` and `fn(x) { x }`. -/
theorem C10_param_list_commas :
    (runParser "fn(x y) \x7b x \x7d").2.errors = []
    ∧ (runParser "fn(x, y) \x7b x \x7d").2.errors = []
    ∧ (runParser "fn(x y) \x7b x \x7d").1.statements =
        (runParser "fn(x, y) \x7b x \x7d").1.statements
    ∧ (runParser "fn(x y) \x7b x \x7d").1.statements =
        [.Expression (.Function ["x", "y"] [.Expression (.Identifier "x")])]
    ∧ (runParser "fn(x,) \x7b x \x7d").2.errors = []
    ∧ (runParser "fn(x,) \x7b x \x7d").1.statements =
        (runParser "fn(x) \x7b x \x7d").1.statements
    ∧ (runParser "fn(x,) \x7b x \x7d").1.statements =
        [.Expression (.Function ["x"] [.Expression (.Identifier "x")])] :=
  ⟨rfl, rfl, rfl, rfl, rfl, rfl, rfl⟩

/-! Operator precedence and canonical printing (C6). -/

/-- C6: each input of the spec's operator-precedence table parses with
zero recorded errors, and printing the resulting program produces exactly
the listed canonical form — every infix and prefix form parenthesized,
binary operators grouped left-associatively, and the statements of
`3 + 4; -5 * 5` printed on separate lines joined by a newline. -/
theorem C6_precedence_printing :
    (runParser "-a * b").2.errors = []
    ∧ Program.displayString (runParser "-a * b").1 = "((-a) * b)"
    ∧ (runParser "!-a").2.errors = []
    ∧ Program.displayString (runParser "!-a").1 = "(!(-a))"
    ∧ (runParser "a + b + c").2.errors = []
    ∧ Program.displayString (runParser "a + b + c").1 = "((a + b) + c)"
    ∧ (runParser "a + b * c + d / e - f").2.errors = []
    ∧ Program.displayString (runParser "a + b * c + d / e - f").1 =
        "(((a + (b * c)) + (d / e)) - f)"
    ∧ (runParser "3 + 4; -5 * 5").2.errors = []
    ∧ Program.displayString (runParser "3 + 4; -5 * 5").1 = "(3 + 4)\n((-5) * 5)"
    ∧ (runParser "5 > 4 == 3 < 4").2.errors = []
    ∧ Program.displayString (runParser "5 > 4 == 3 < 4").1 = "((5 > 4) == (3 < 4))"
    ∧ (runParser "3 + 4 * 5 == 3 * 1 + 4 * 5").2.errors = []
    ∧ Program.displayString (runParser "3 + 4 * 5 == 3 * 1 + 4 * 5").1 =
        "((3 + (4 * 5)) == ((3 * 1) + (4 * 5)))"
    ∧ (runParser "1 + (2 + 3) + 4").2.errors = []
    ∧ Program.displayString (runParser "1 + (2 + 3) + 4").1 = "((1 + (2 + 3)) + 4)"
    ∧ (runParser "-(5 + 5)").2.errors = []
    ∧ Program.displayString (runParser "-(5 + 5)").1 = "(-(5 + 5))" :=
  ⟨rfl, rfl, rfl, rfl, rfl, rfl, rfl, rfl, rfl, rfl, rfl, rfl, rfl, rfl, rfl, rfl, rfl, rfl⟩

/-! Integer arithmetic (C8). -/

/-- Nesting depth of an expression through the arithmetic constructors. -/
def exprDepth : Expression → Nat
  | .PrefixExpr _ rhs => exprDepth rhs + 1
  | .InfixExpr lhs _ rhs => max (exprDepth lhs) (exprDepth rhs) + 1
  | _ => 0

/-- Mathematical evaluation of the arithmetic fragment (integer literals,
`+ - * / %`, unary minus), defined only when every literal and every
intermediate result is an `i64` value, no division or remainder has a
zero divisor, and no `i64::MIN / -1` or `i64::MIN % -1` occurs (Rust
`/`/`%` truncate, which `Int.tdiv`/`Int.tmod` compute).  Comparisons and
every non-arithmetic constructor are outside the fragment (`none`). -/
def mathEvalI64 : Expression → Option Int
  | .Int n => if inI64 n then some n else none
  | .PrefixExpr .Negative rhs =>
    match mathEvalI64 rhs with
    | some a => if inI64 (-a) then some (-a) else none
    | none => none
  | .InfixExpr lhs op rhs =>
    match mathEvalI64 lhs, mathEvalI64 rhs with
    | some a, some b =>
      match op with
      | .Add => if inI64 (a + b) then some (a + b) else none
      | .Sub => if inI64 (a - b) then some (a - b) else none
      | .Mult => if inI64 (a * b) then some (a * b) else none
      | .Div => if b = 0 ∨ (a = i64Min ∧ b = -1) then none else some (Int.tdiv a b)
      | .Modulo => if b = 0 ∨ (a = i64Min ∧ b = -1) then none else some (Int.tmod a b)
      | _ => none
    | _, _ => none
  | _ => none

/-- C8 counterexample: the claim as stated is false.  The expression
`9223372036854775807 + 1` is built only from integer literals and an
arithmetic infix operator, yet its evaluation panics on `i64` overflow
instead of producing the mathematical `Integer(2^63)`; and the infix
operator `==` on integer operands yields a `Boolean`, not an `Integer`,
so "the nine infix operators" cannot all yield the mathematical integer
value. -/
theorem C8_counterexample :
    evalNode 10 (.Expression (.InfixExpr (.Int 9223372036854775807) .Add (.Int 1))) 0 σ0 =
      .panic "attempt to add with overflow"
    ∧ (evalNode 10 (.Expression (.InfixExpr (.Int 1) .Equal (.Int 1))) 0 σ0).valueOf =
      some (.Boolean true) :=
  ⟨rfl, rfl⟩

theorem C8_int_case (i v : Int) (env : Nat) (σ : Store) (fuel : Nat)
    (hm : mathEvalI64 (.Int i) = some v) (hf : 2 ≤ fuel) :
    evalNode fuel (.Expression (.Int i)) env σ = .ok (.Integer v, σ) := by
  obtain ⟨f, rfl⟩ : ∃ f, fuel = (f + 1) + 1 := ⟨fuel - 2, by omega⟩
  simp only [mathEvalI64, Option.ite_none_right_eq_some, Option.some.injEq] at hm
  obtain ⟨-, rfl⟩ := hm
  simp [evalNode, eval_expression]

theorem C8_go : ∀ (n : Nat) (e : Expression) (v : Int) (env : Nat) (σ : Store) (fuel : Nat),
    exprDepth e ≤ n → mathEvalI64 e = some v → 3 * exprDepth e + 2 ≤ fuel →
    evalNode fuel (.Expression e) env σ = .ok (.Integer v, σ) := by
  intro n
  induction n with
  | zero =>
    intro e v env σ fuel hd hm hf
    cases e with
    | Int i => exact C8_int_case i v env σ fuel hm (by omega)
    | PrefixExpr op rhs => simp [exprDepth] at hd
    | InfixExpr lhs op rhs => simp [exprDepth] at hd
    | Bool b => simp [mathEvalI64] at hm
    | Identifier s => simp [mathEvalI64] at hm
    | Null => simp [mathEvalI64] at hm
    | If c t e => simp [mathEvalI64] at hm
    | Function p b => simp [mathEvalI64] at hm
    | Call f a => simp [mathEvalI64] at hm
  | succ n ih =>
    intro e v env σ fuel hd hm hf
    cases e with
    | Int i => exact C8_int_case i v env σ fuel hm (by omega)
    | Bool b => simp [mathEvalI64] at hm
    | Identifier s => simp [mathEvalI64] at hm
    | Null => simp [mathEvalI64] at hm
    | If c t e => simp [mathEvalI64] at hm
    | Function p b => simp [mathEvalI64] at hm
    | Call f a => simp [mathEvalI64] at hm
    | PrefixExpr op rhs =>
      cases op with
      | Not => simp [mathEvalI64] at hm
      | Negative =>
        rcases hmr : mathEvalI64 rhs with _ | a
        · simp [mathEvalI64, hmr] at hm
        simp only [mathEvalI64, hmr, Option.ite_none_right_eq_some, Option.some.injEq] at hm
        obtain ⟨hin, rfl⟩ := hm
        have hdr : exprDepth rhs ≤ n := by
          simp only [exprDepth] at hd
          omega
        obtain ⟨f, rfl⟩ : ∃ f, fuel = ((f + 1) + 1) + 1 :=
          ⟨fuel - 3, by simp only [exprDepth] at hf; omega⟩
        have ihr := ih rhs a env σ f hdr hmr (by simp only [exprDepth] at hf; omega)
        have hane : a ≠ i64Min := by
          simp only [inI64, i64Min, i64Max, decide_eq_true_eq] at hin ⊢
          omega
        simp [evalNode, eval_expression, eval_prefix_expression, ihr,
          eval_negative_operator_prefix_expression, hane]
    | InfixExpr lhs op rhs =>
      rcases hml : mathEvalI64 lhs with _ | a
      · simp [mathEvalI64, hml] at hm
      rcases hmr : mathEvalI64 rhs with _ | b
      · simp [mathEvalI64, hml, hmr] at hm
      have hmaxl := Nat.le_max_left (exprDepth lhs) (exprDepth rhs)
      have hmaxr := Nat.le_max_right (exprDepth lhs) (exprDepth rhs)
      have hdl : exprDepth lhs ≤ n := by
        simp only [exprDepth] at hd
        omega
      have hdr : exprDepth rhs ≤ n := by
        simp only [exprDepth] at hd
        omega
      obtain ⟨f, rfl⟩ : ∃ f, fuel = ((f + 1) + 1) + 1 :=
        ⟨fuel - 3, by simp only [exprDepth] at hf; omega⟩
      have hfl : 3 * exprDepth lhs + 2 ≤ f := by
        simp only [exprDepth] at hf
        omega
      have hfr : 3 * exprDepth rhs + 2 ≤ f := by
        simp only [exprDepth] at hf
        omega
      have ihl := ih lhs a env σ f hdl hml hfl
      have ihr := ih rhs b env σ f hdr hmr hfr
      cases op with
      | Add =>
        simp only [mathEvalI64, hml, hmr, Option.ite_none_right_eq_some,
          Option.some.injEq] at hm
        obtain ⟨hin, rfl⟩ := hm
        simp [evalNode, eval_expression, eval_infix_expression, ihl, ihr,
          eval_infix_objects, hin]
      | Sub =>
        simp only [mathEvalI64, hml, hmr, Option.ite_none_right_eq_some,
          Option.some.injEq] at hm
        obtain ⟨hin, rfl⟩ := hm
        simp [evalNode, eval_expression, eval_infix_expression, ihl, ihr,
          eval_infix_objects, hin]
      | Mult =>
        simp only [mathEvalI64, hml, hmr, Option.ite_none_right_eq_some,
          Option.some.injEq] at hm
        obtain ⟨hin, rfl⟩ := hm
        simp [evalNode, eval_expression, eval_infix_expression, ihl, ihr,
          eval_infix_objects, hin]
      | Div =>
        simp only [mathEvalI64, hml, hmr, Option.ite_none_left_eq_some,
          Option.some.injEq] at hm
        obtain ⟨hng, rfl⟩ := hm
        push_neg at hng
        have hno : ¬(a = i64Min ∧ b = -1) := by
          rintro ⟨ha, hb⟩
          exact hng.2 ha hb
        simp [evalNode, eval_expression, eval_infix_expression, ihl, ihr,
          eval_infix_objects, hng.1, hno]
      | Modulo =>
        simp only [mathEvalI64, hml, hmr, Option.ite_none_left_eq_some,
          Option.some.injEq] at hm
        obtain ⟨hng, rfl⟩ := hm
        push_neg at hng
        have hno : ¬(a = i64Min ∧ b = -1) := by
          rintro ⟨ha, hb⟩
          exact hng.2 ha hb
        simp [evalNode, eval_expression, eval_infix_expression, ihl, ihr,
          eval_infix_objects, hng.1, hno]
      | Equal => simp [mathEvalI64, hml, hmr] at hm
      | NotEqual => simp [mathEvalI64, hml, hmr] at hm
      | GreaterThan => simp [mathEvalI64, hml, hmr] at hm
      | LessThan => simp [mathEvalI64, hml, hmr] at hm

/-- C8 (as amended): for every expression of the arithmetic fragment —
integer literals and the arithmetic operators `+ - * / %` and unary
minus, no identifiers — whose literals and intermediate results all fit
in `i64` and which performs no division or remainder with a zero divisor
(nor `i64::MIN / -1` / `i64::MIN % -1`), evaluation returns exactly
`Integer(v)` where `v` is the mathematical value (with `/` and `%` the
truncated division and remainder of the operator table), leaving the
store untouched.  The original claim is false for the four comparison
operators (they yield booleans) and for results outside `i64` (the code
panics on overflow); see `C8_counterexample`. -/
theorem C8_arith_eval (e : Expression) (v : Int) (env : Nat) (σ : Store) (fuel : Nat)
    (hm : mathEvalI64 e = some v) (hf : 3 * exprDepth e + 2 ≤ fuel) :
    evalNode fuel (.Expression e) env σ = .ok (.Integer v, σ) :=
  C8_go (exprDepth e) e v env σ fuel (Nat.le_refl _) hm hf

/-- C8 witness: `(2 + 3) * 4` evaluates to `Integer 20` by
`C8_arith_eval`. -/
theorem C8_arith_eval_witness :
    mathEvalI64 (.InfixExpr (.InfixExpr (.Int 2) .Add (.Int 3)) .Mult (.Int 4)) = some 20
    ∧ evalNode 10
        (.Expression (.InfixExpr (.InfixExpr (.Int 2) .Add (.Int 3)) .Mult (.Int 4))) 0 σ0 =
      .ok (.Integer 20, σ0) :=
  ⟨rfl, C8_arith_eval (.InfixExpr (.InfixExpr (.Int 2) .Add (.Int 3)) .Mult (.Int 4))
    20 0 σ0 10 rfl (by decide)⟩
